import Mathlib

/-!
Verification of the nz-partner-hackathon data-processing scripts.

Each Python processing script is shallowly embedded: pandas columns become
Lean lists, float64 cells become exact rationals (ℚ), NaN/None become
Option, and every numeric transformation is translated from the source
scripts under scripts/.
-/

/-- numpy/pandas `.round(k)` rounds half to even.  This is the integer
rounding-half-to-even of a rational. -/
def roundHalfEven (x : ℚ) : ℤ :=
  let f := ⌊x⌋
  let r := x - f
  if r < 1/2 then f
  else if 1/2 < r then f + 1
  else if f % 2 = 0 then f else f + 1

/-- `Series.round(k)`: round to `k` decimal places, half to even. -/
def roundTo (k : ℕ) (x : ℚ) : ℚ :=
  (roundHalfEven (x * 10 ^ k) : ℚ) / 10 ^ k

namespace FuelPercent

/-!
Embedding of the per-row fuel-type arithmetic of
`scripts/process_fuel_data_fixed.py` (lines 52-73) and the identical
arithmetic of `process_fuel_type_data` in
`scripts/process_and_load_electricity.py` (lines 82-103).
A row holds the eight numeric fuel columns after
`pd.to_numeric(...).fillna(0)`.
-/

structure FuelRow where
  hydro : ℚ
  geothermal : ℚ
  biogas : ℚ
  wind : ℚ
  solar_pv : ℚ
  oil : ℚ
  coal : ℚ
  gas : ℚ
deriving DecidableEq

/-- `df['RENEWABLE_GWH'] = df[available_renewable].sum(axis=1)` over
renewable_cols = [HYDRO, GEOTHERMAL, BIOGAS, WIND, SOLAR_PV]. -/
def RENEWABLE_GWH (r : FuelRow) : ℚ :=
  r.hydro + r.geothermal + r.biogas + r.wind + r.solar_pv

/-- `df['FOSSIL_FUEL_GWH'] = df[available_fossil].sum(axis=1)` over
fossil_cols = [OIL, COAL, GAS]. -/
def FOSSIL_FUEL_GWH (r : FuelRow) : ℚ :=
  r.oil + r.coal + r.gas

/-- `df['TOTAL_GENERATION_GWH'] = df['RENEWABLE_GWH'] + df['FOSSIL_FUEL_GWH']`. -/
def TOTAL_GENERATION_GWH (r : FuelRow) : ℚ :=
  RENEWABLE_GWH r + FOSSIL_FUEL_GWH r

/-- `np.where(total > 0, (renewable / total * 100).round(2), 0)`
(process_fuel_data_fixed.py lines 64-68). -/
def RENEWABLE_PERCENTAGE (r : FuelRow) : ℚ :=
  if 0 < TOTAL_GENERATION_GWH r then
    roundTo 2 (RENEWABLE_GWH r / TOTAL_GENERATION_GWH r * 100)
  else 0

/-- `np.where(total > 0, (fossil / total * 100).round(2), 0)`
(process_fuel_data_fixed.py lines 69-73). -/
def FOSSIL_FUEL_PERCENTAGE (r : FuelRow) : ℚ :=
  if 0 < TOTAL_GENERATION_GWH r then
    roundTo 2 (FOSSIL_FUEL_GWH r / TOTAL_GENERATION_GWH r * 100)
  else 0

end FuelPercent

/-- C1: for every fuel row, if the computed renewable total and fossil total
are both 0 (so the denominator renewable + fossil is 0), then both
RENEWABLE_PERCENTAGE and FOSSIL_FUEL_PERCENTAGE are exactly 0: the
`np.where` branch taken is the constant-0 branch, so no null, NaN or error
can appear. -/
theorem c1_zero_division_policy (r : FuelPercent.FuelRow)
    (hren : FuelPercent.RENEWABLE_GWH r = 0)
    (hfos : FuelPercent.FOSSIL_FUEL_GWH r = 0) :
    FuelPercent.RENEWABLE_PERCENTAGE r = 0 ∧
      FuelPercent.FOSSIL_FUEL_PERCENTAGE r = 0 := by
  have htot : FuelPercent.TOTAL_GENERATION_GWH r = 0 := by
    simp [FuelPercent.TOTAL_GENERATION_GWH, hren, hfos]
  constructor
  · simp [FuelPercent.RENEWABLE_PERCENTAGE, htot]
  · simp [FuelPercent.FOSSIL_FUEL_PERCENTAGE, htot]

/-- Witness for C1: the all-zero fuel row. -/
theorem c1_zero_division_policy_witness :
    FuelPercent.RENEWABLE_PERCENTAGE ⟨0, 0, 0, 0, 0, 0, 0, 0⟩ = 0 ∧
      FuelPercent.FOSSIL_FUEL_PERCENTAGE ⟨0, 0, 0, 0, 0, 0, 0, 0⟩ = 0 :=
  c1_zero_division_policy ⟨0, 0, 0, 0, 0, 0, 0, 0⟩ (by norm_num [FuelPercent.RENEWABLE_GWH])
    (by norm_num [FuelPercent.FOSSIL_FUEL_GWH])

namespace Quarterly

/-!
Embedding of the year-over-year stage of
`process_quarterly_data_fixed` (scripts/fix_quarterly_data.py lines 67-70)
and the identical stage of `process_quarterly_data`
(scripts/process_and_load_electricity.py lines 169-172):

    df_quarterly = df_quarterly.sort_values(['QUARTER_YEAR', 'QUARTER_NUMBER'])
    df_quarterly['YEAR_OVER_YEAR_CHANGE_PERCENT'] = (
        df_quarterly.groupby('QUARTER_NUMBER')['NET_GENERATION_GWH'].pct_change(4) * 100
    ).round(4)

A quarterly record carries the three fields the stage reads.  `pct_change(4)`
on a grouped series compares each element with the element four positions
earlier *inside its own group* and yields NaN (here: `none`) when no such
element exists; `groupby` preserves the row order of the sorted frame inside
each group.
-/

structure QRecord where
  QUARTER_YEAR : ℕ
  QUARTER_NUMBER : ℕ
  NET_GENERATION_GWH : ℚ
deriving DecidableEq

/-- Sort key order of `sort_values(['QUARTER_YEAR', 'QUARTER_NUMBER'])`:
strict lexicographic comparison on (year, quarter number). -/
def keyLT (a b : QRecord) : Bool :=
  a.QUARTER_YEAR < b.QUARTER_YEAR ||
    (a.QUARTER_YEAR == b.QUARTER_YEAR && a.QUARTER_NUMBER < b.QUARTER_NUMBER)

/-- Insert one record into an already key-sorted list, keeping ties in
their existing order. -/
def insertRec (x : QRecord) : List QRecord → List QRecord
  | [] => [x]
  | y :: ys => if keyLT y x then y :: insertRec x ys else x :: y :: ys

/-- `df.sort_values(['QUARTER_YEAR', 'QUARTER_NUMBER'])` as a stable
insertion sort. -/
def sort_values : List QRecord → List QRecord
  | [] => []
  | x :: xs => insertRec x (sort_values xs)

/-- The group that `groupby('QUARTER_NUMBER')` forms for quarter number `q`,
in frame order. -/
def groupFor (q : ℕ) (rows : List QRecord) : List QRecord :=
  rows.filter (fun r => r.QUARTER_NUMBER == q)

/-- `Series.pct_change(4)` inside one group: element `i` becomes
`x_i / x_(i-4) - 1`, and NaN (`none`) while fewer than 4 predecessors
exist.  `orig` is the whole group series, `i` the index of the head of the
remaining suffix. -/
def pctChangeAux (orig : List ℚ) (i : ℕ) : List ℚ → List (Option ℚ)
  | [] => []
  | v :: vs =>
      (if 4 ≤ i then (orig.get? (i - 4)).map (fun w => v / w - 1) else none) ::
        pctChangeAux orig (i + 1) vs

/-- `Series.pct_change(4)` over a group series. -/
def pct_change4 (xs : List ℚ) : List (Option ℚ) :=
  pctChangeAux xs 0 xs

/-- The YEAR_OVER_YEAR_CHANGE_PERCENT column restricted to the group of
quarter number `q`: sort the frame, take the group in frame order, apply
`pct_change(4)`, multiply by 100 and round to 4 decimals (NaN stays NaN).
Each group record is paired with its YoY value. -/
def yoyForQuarter (rows : List QRecord) (q : ℕ) : List (QRecord × Option ℚ) :=
  let g := groupFor q (sort_values rows)
  g.zip ((pct_change4 (g.map QRecord.NET_GENERATION_GWH)).map
    (Option.map (fun x => roundTo 4 (x * 100))))

/-- The quarterly series of the C2 failing input: quarter 1 of five
consecutive years 2000-2004 with generation 100, 200, 300, 400, 800. -/
def c2rows : List QRecord :=
  [⟨2000, 1, 100⟩, ⟨2001, 1, 200⟩, ⟨2002, 1, 300⟩, ⟨2003, 1, 400⟩, ⟨2004, 1, 800⟩]

end Quarterly

/-- C2 (code evaluated at the failing input): on the quarter-1 series
100, 200, 300, 400, 800 over the consecutive years 2000-2004, the code
leaves YEAR_OVER_YEAR_CHANGE_PERCENT null for 2001-2003 even though each
has a same-quarter record in the immediately preceding year, and assigns
2004 the change against 2000 (four years back), 700%, instead of the
change against 2003, which would be 100%.  `pct_change(4)` inside a
quarter-number group is a four-year lag, not a one-year lag. -/
theorem c2_yoy_lag_code_eval :
    Quarterly.yoyForQuarter Quarterly.c2rows 1 =
      [(⟨2000, 1, 100⟩, none), (⟨2001, 1, 200⟩, none), (⟨2002, 1, 300⟩, none),
        (⟨2003, 1, 400⟩, none), (⟨2004, 1, 800⟩, some 700)] ∧
      roundTo 4 ((800 / 400 - 1) * 100) = (100 : ℚ) := by
  constructor
  · norm_num [Quarterly.yoyForQuarter, Quarterly.c2rows, Quarterly.sort_values,
      Quarterly.insertRec, Quarterly.keyLT, Quarterly.groupFor, Quarterly.pct_change4,
      Quarterly.pctChangeAux, roundTo, roundHalfEven, List.filter, List.zip]
  · norm_num [roundTo, roundHalfEven]

/-- C3: whenever the quarter-number-`q` group of the sorted quarterly frame
consists of exactly five records over five consecutive years with values
v1..v5, the fifth year's YEAR_OVER_YEAR_CHANGE_PERCENT is
`((v5/v1)-1)*100` rounded to 4 decimals, and the first four years' records
for that quarter number stay null. -/
theorem c3_yoy_fifth_year_vs_first (rows : List Quarterly.QRecord) (q : ℕ)
    (r1 r2 r3 r4 r5 : Quarterly.QRecord)
    (hg : Quarterly.groupFor q (Quarterly.sort_values rows) = [r1, r2, r3, r4, r5])
    (h2 : r2.QUARTER_YEAR = r1.QUARTER_YEAR + 1)
    (h3 : r3.QUARTER_YEAR = r2.QUARTER_YEAR + 1)
    (h4 : r4.QUARTER_YEAR = r3.QUARTER_YEAR + 1)
    (h5 : r5.QUARTER_YEAR = r4.QUARTER_YEAR + 1) :
    Quarterly.yoyForQuarter rows q =
      [(r1, none), (r2, none), (r3, none), (r4, none),
        (r5, some (roundTo 4
          ((r5.NET_GENERATION_GWH / r1.NET_GENERATION_GWH - 1) * 100)))] := by
  simp [Quarterly.yoyForQuarter, hg, Quarterly.pct_change4, Quarterly.pctChangeAux,
    List.zip]

/-- Witness for C3: the spec's compounding series 100, 110, 121, 133.1,
146.41 on quarter 1 of 2000-2004. -/
theorem c3_yoy_fifth_year_vs_first_witness :
    Quarterly.yoyForQuarter
        [⟨2000, 1, 100⟩, ⟨2001, 1, 110⟩, ⟨2002, 1, 121⟩, ⟨2003, 1, 133.1⟩,
          ⟨2004, 1, 146.41⟩] 1 =
      [(⟨2000, 1, 100⟩, none), (⟨2001, 1, 110⟩, none), (⟨2002, 1, 121⟩, none),
        (⟨2003, 1, 133.1⟩, none),
        (⟨2004, 1, 146.41⟩, some (roundTo 4 ((146.41 / 100 - 1) * 100)))] :=
  c3_yoy_fifth_year_vs_first
    [⟨2000, 1, 100⟩, ⟨2001, 1, 110⟩, ⟨2002, 1, 121⟩, ⟨2003, 1, 133.1⟩, ⟨2004, 1, 146.41⟩]
    1 ⟨2000, 1, 100⟩ ⟨2001, 1, 110⟩ ⟨2002, 1, 121⟩ ⟨2003, 1, 133.1⟩ ⟨2004, 1, 146.41⟩
    (by rfl) (by norm_num) (by norm_num) (by norm_num) (by norm_num)

/-- Python `pat in s` on char lists: `isPrefixChars pat cs` is true when
`pat` starts `cs`. -/
def isPrefixChars : List Char → List Char → Bool
  | [], _ => true
  | _ :: _, [] => false
  | a :: as, b :: bs => a == b && isPrefixChars as bs

/-- Python `pat in s` on char lists: true when `pat` occurs contiguously
inside `cs`. -/
def containsChars (pat : List Char) : List Char → Bool
  | [] => isPrefixChars pat []
  | c :: cs => isPrefixChars pat (c :: cs) || containsChars pat cs

/-- Python `str.lower()`, character by character (the keyword sets of these
scripts are plain ASCII). -/
def lowerChars (cs : List Char) : List Char :=
  cs.map Char.toLower

/-- Python `keyword in text.lower()` for a fixed lower-case keyword. -/
def containsKeyword (keyword text : String) : Bool :=
  containsChars keyword.data (lowerChars text.data)

/-- A raw pandas cell as these scripts see one: NaN, a string, a pandas
Timestamp, or a float64 number (modelled exactly as a rational). -/
inductive Cell
  | na : Cell
  | str : String → Cell
  | ts : Cell
  | num : ℚ → Cell
deriving DecidableEq

namespace FuelHeader

/-!
Embedding of the header-row locator of `process_fuel_type_data_corrected`
(scripts/fix_fuel_data_processing.py lines 24-41) and of the function's
`None` return when the locator fails (lines 183-185).  The locator only
reads the first two cells of each raw row, so a row is modelled by those
two cells.  `pd.to_datetime` on strings is kept abstract as a success
predicate `parsesAsDate` (Timestamps always convert, numbers fail the
isinstance check, and `str()` of a Timestamp or a number never contains
the letters of 'quarter').
-/

structure Row where
  c0 : Cell
  c1 : Cell
deriving DecidableEq

/-- First pass test (lines 27-30):
`pd.notna(row.iloc[0]) and 'quarter' in str(row.iloc[0]).lower()`. -/
def keywordMatch : Cell → Bool
  | .na => false
  | .str s => containsKeyword "quarter" s
  | .ts => false
  | .num _ => false

/-- Second pass test (lines 33-41): `pd.notna(row.iloc[1])`, the cell is a
`pd.Timestamp` or `str`, and `pd.to_datetime` on it succeeds. -/
def dateMatch (parsesAsDate : String → Bool) : Cell → Bool
  | .na => false
  | .str s => parsesAsDate s
  | .ts => true
  | .num _ => false

/-- Index of the first element satisfying `p`, scanning front to back. -/
def findIdxP {α : Type} (p : α → Bool) : List α → Option ℕ
  | [] => none
  | x :: xs => if p x then some 0 else (findIdxP p xs).map (· + 1)

/-- The locator: scan all rows for the keyword match first; only when no
row matches fall back to scanning for a date-parseable second cell; when
both scans fail the located index is `None`, and the caller then returns
`None` for the source (lines 183-185). -/
def header_row_idx (parsesAsDate : String → Bool) (grid : List Row) : Option ℕ :=
  match findIdxP (fun r => keywordMatch r.c0) grid with
  | some i => some i
  | none => findIdxP (fun r => dateMatch parsesAsDate r.c1) grid

theorem findIdxP_eq_some {α : Type} (p : α → Bool) :
    ∀ (l : List α) (i : ℕ) (r : α), l.get? i = some r → p r = true →
      (∀ j rj, j < i → l.get? j = some rj → p rj = false) →
      findIdxP p l = some i := by
  intro l
  induction l with
  | nil => intro i r h; simp at h
  | cons x xs ih =>
    intro i r hget hp hbefore
    match i with
    | 0 =>
      simp at hget
      subst hget
      simp [findIdxP, hp]
    | n + 1 =>
      have hx : p x = false := hbefore 0 x (Nat.succ_pos n) rfl
      have : findIdxP p xs = some n := by
        refine ih n r hget hp ?_
        intro j rj hj hgj
        exact hbefore (j + 1) rj (Nat.succ_lt_succ hj) hgj
      simp [findIdxP, hx, this]

theorem findIdxP_eq_none {α : Type} (p : α → Bool) :
    ∀ l : List α, (∀ r ∈ l, p r = false) → findIdxP p l = none := by
  intro l
  induction l with
  | nil => intro _; rfl
  | cons x xs ih =>
    intro h
    have hx := h x (List.mem_cons_self x xs)
    simp [findIdxP, hx, ih fun r hr => h r (List.mem_cons_of_mem x hr)]

end FuelHeader

/-- C4: (a) if row `i` of the raw grid is the first row, top to bottom,
whose first cell contains the case-insensitive keyword 'quarter', the
locator returns `some i` regardless of the date fallback; (b) if no row
matches the keyword and no row has a date-parseable second cell, the
locator returns `none` (so `process_fuel_type_data_corrected` returns
`None` for that source). -/
theorem c4_header_locator (parsesAsDate : String → Bool) (grid : List FuelHeader.Row) :
    (∀ i r, grid.get? i = some r → FuelHeader.keywordMatch r.c0 = true →
      (∀ j rj, j < i → grid.get? j = some rj → FuelHeader.keywordMatch rj.c0 = false) →
      FuelHeader.header_row_idx parsesAsDate grid = some i) ∧
    ((∀ r ∈ grid, FuelHeader.keywordMatch r.c0 = false ∧
        FuelHeader.dateMatch parsesAsDate r.c1 = false) →
      FuelHeader.header_row_idx parsesAsDate grid = none) := by
  constructor
  · intro i r hget hp hbefore
    unfold FuelHeader.header_row_idx
    rw [FuelHeader.findIdxP_eq_some _ grid i r hget hp hbefore]
  · intro h
    unfold FuelHeader.header_row_idx
    rw [FuelHeader.findIdxP_eq_none _ grid fun r hr => (h r hr).1]
    exact FuelHeader.findIdxP_eq_none _ grid fun r hr => (h r hr).2

/-- Witness for C4: a grid whose keyword row ('Calendar quarter') sits at
index 1, and a keyword-free, date-free grid that locates nothing. -/
theorem c4_header_locator_witness :
    FuelHeader.header_row_idx (fun _ => false)
        [⟨.str "Annual totals", .na⟩, ⟨.str "Calendar quarter", .ts⟩,
          ⟨.str "Hydro", .num 100⟩] = some 1 ∧
      FuelHeader.header_row_idx (fun _ => false)
        [⟨.na, .na⟩, ⟨.str "Hydro", .num 5⟩] = none := by
  constructor
  · exact (c4_header_locator (fun _ => false) _).1 1 ⟨.str "Calendar quarter", .ts⟩
      (by rfl) (by decide)
      (by
        intro j rj hj hgj
        match j, hj with
        | 0, _ =>
          simp at hgj
          subst hgj
          decide)
  · exact (c4_header_locator (fun _ => false) _).2
      (by
        intro r hr
        simp [List.mem_cons] at hr
        rcases hr with h | h <;> subst h <;> exact ⟨by decide, by decide⟩)

/-- Python `str.strip()`: drop leading and trailing whitespace. -/
def pyStrip (s : String) : String :=
  String.mk (((s.data.dropWhile Char.isWhitespace).reverse.dropWhile
    Char.isWhitespace).reverse)

namespace Tourism

/-!
Embedding of `extract_region_columns`
(scripts/process_tourism_data.py lines 126-154).  A header cell is NaN
(`none`) or a string; the function walks the zipped (region header row,
metric header row) keeping a running `current_region`, emits one
(region, metric) pair for every column whose metric cell is non-NaN and
not the empty string, and skips region bookkeeping for blank region cells.
-/

/-- Line 134: `pd.isna(region_cell) or region_cell == '' or
str(region_cell).strip() in [' ', '']`. -/
def isBlankRegion : Option String → Bool
  | none => true
  | some s => s == "" || pyStrip s == " " || pyStrip s == ""

/-- Lines 135 and 150: `pd.notna(metric_cell) and metric_cell != ''`. -/
def metricPresent : Option String → Bool
  | none => false
  | some m => m != ""

/-- Python truthiness of `current_region` in
`current_region if current_region else 'Unknown'`. -/
def regionOrUnknown : Option String → String
  | none => "Unknown"
  | some s => if s == "" then "Unknown" else s

/-- The loop body of `extract_region_columns`, lines 131-152, with
`cur` playing `current_region`. -/
def extractGo (cur : Option String) :
    List (Option String × Option String) → List String × List String
  | [] => ([], [])
  | (rc, mc) :: rest =>
    if isBlankRegion rc then
      if metricPresent mc then
        let p := extractGo cur rest
        (regionOrUnknown cur :: p.1, pyStrip (mc.getD "") :: p.2)
      else extractGo cur rest
    else
      let name := pyStrip (rc.getD "")
      let cur2 := if name != "" && name != " " then some name else cur
      if metricPresent mc then
        let p := extractGo cur2 rest
        (regionOrUnknown cur2 :: p.1, pyStrip (mc.getD "") :: p.2)
      else extractGo cur2 rest

/-- `extract_region_columns(header_row, metric_row)`: returns the parallel
lists `regions, metrics`. -/
def extract_region_columns (header metric : List (Option String)) :
    List String × List String :=
  extractGo none (header.zip metric)

/-- Modelled from the spec sentence for the claim (refinement side): one
output pair per column whose secondary label is non-blank; the emitted
primary label is the nearest preceding non-blank primary label at or
before that column (stripped), or 'Unknown' when none has appeared yet.
`seen` is the list of primary cells at or before the column, nearest
first. -/
def extractSpecGo (seen : List (Option String)) :
    List (Option String × Option String) → List String × List String
  | [] => ([], [])
  | (rc, mc) :: rest =>
    let seen2 := rc :: seen
    let p := extractSpecGo seen2 rest
    if metricPresent mc then
      ((match seen2.find? (fun c => !isBlankRegion c) with
        | some c => pyStrip (c.getD "")
        | none => "Unknown") :: p.1,
        pyStrip (mc.getD "") :: p.2)
    else p

/-- The spec-worded extractor compared against the code. -/
def extract_region_columns_spec (header metric : List (Option String)) :
    List String × List String :=
  extractSpecGo [] (header.zip metric)

theorem nonBlank_strip_ne_empty (c : Option String) (h : isBlankRegion c = false) :
    pyStrip (c.getD "") ≠ "" := by
  match c with
  | none => simp [isBlankRegion] at h
  | some s =>
    simp only [isBlankRegion, Bool.or_eq_false_iff] at h
    intro hcon
    exact absurd hcon (by simpa using h.2)

theorem extractGo_eq_spec :
    ∀ (cols : List (Option String × Option String)) (seen : List (Option String))
      (cur : Option String),
      cur = (seen.find? (fun c => !isBlankRegion c)).map (fun c => pyStrip (c.getD "")) →
      extractGo cur cols = extractSpecGo seen cols := by
  intro cols
  induction cols with
  | nil => intro seen cur _; rfl
  | cons hd rest ih =>
    intro seen cur hcur
    obtain ⟨rc, mc⟩ := hd
    by_cases hblank : isBlankRegion rc = true
    · have hfind : (rc :: seen).find? (fun c => !isBlankRegion c) =
          seen.find? (fun c => !isBlankRegion c) := by
        simp [List.find?, hblank]
      have hrest := ih (rc :: seen) cur (by rw [hfind]; exact hcur)
      have hemit : regionOrUnknown cur =
          (match (rc :: seen).find? (fun c => !isBlankRegion c) with
            | some c => pyStrip (c.getD "")
            | none => "Unknown") := by
        rw [hfind]
        cases hf : seen.find? (fun c => !isBlankRegion c) with
        | none => simp [hcur, hf, regionOrUnknown]
        | some c =>
          have hc : isBlankRegion c = false := by
            have := List.find?_some hf
            simpa using this
          have hne := nonBlank_strip_ne_empty c hc
          simp only [hcur, hf, Option.map_some]
          simp [regionOrUnknown, hne]
      simp only [extractGo, extractSpecGo, hblank, if_true]
      by_cases hm : metricPresent mc = true
      · simp only [hm, if_true, hrest, hemit]
      · simp only [Bool.not_eq_true] at hm
        simp only [hm, Bool.false_eq_true, if_false, hrest]
    · simp only [Bool.not_eq_true] at hblank
      have hname := nonBlank_strip_ne_empty rc hblank
      have hfind : (rc :: seen).find? (fun c => !isBlankRegion c) = some rc := by
        simp [List.find?, hblank]
      have hcur2 : (if (pyStrip (rc.getD "") != "" && pyStrip (rc.getD "") != " ")
            then some (pyStrip (rc.getD "")) else cur) =
          some (pyStrip (rc.getD "")) := by
        have hsp : pyStrip (rc.getD "") ≠ " " := by
          match rc with
          | none => simp [isBlankRegion] at hblank
          | some s =>
            simp only [isBlankRegion, Bool.or_eq_false_iff] at hblank
            simpa using hblank.1.2
        simp [hname, hsp]
      have hrest := ih (rc :: seen) (some (pyStrip (rc.getD "")))
        (by rw [hfind]; rfl)
      have hemit : regionOrUnknown (some (pyStrip (rc.getD ""))) =
          (match (rc :: seen).find? (fun c => !isBlankRegion c) with
            | some c => pyStrip (c.getD "")
            | none => "Unknown") := by
        rw [hfind]
        simp [regionOrUnknown, hname]
      simp only [extractGo, extractSpecGo, hblank, Bool.false_eq_true, if_false]
      rw [hcur2]
      by_cases hm : metricPresent mc = true
      · simp only [hm, if_true, hrest, hemit]
      · simp only [Bool.not_eq_true] at hm
        simp only [hm, Bool.false_eq_true, if_false, hrest]

end Tourism

/-- C5: on equal-length parallel header rows the label extractor agrees
with the spec-worded rule: exactly one (primary, secondary) pair per
column whose secondary label is non-blank (blank-secondary columns are
excluded even when a primary label is present), and each emitted primary
is the nearest preceding non-blank primary label at or before the column,
or 'Unknown' when none has appeared yet. -/
theorem c5_extract_region_columns_spec (header metric : List (Option String))
    (hlen : header.length = metric.length) :
    Tourism.extract_region_columns header metric =
      Tourism.extract_region_columns_spec header metric :=
  Tourism.extractGo_eq_spec (header.zip metric) [] none rfl

/-- Witness for C5: regions row `[NaN, "Auckland", NaN, "", "Otago"]` with
metrics row `["", "Nights", "Nights", "Occupancy", "Nights"]`. -/
theorem c5_extract_region_columns_spec_witness :
    Tourism.extract_region_columns
        [none, some "Auckland", none, some "", some "Otago"]
        [some "", some "Nights", some "Nights", some "Occupancy", some "Nights"] =
      Tourism.extract_region_columns_spec
        [none, some "Auckland", none, some "", some "Otago"]
        [some "", some "Nights", some "Nights", some "Occupancy", some "Nights"] :=
  c5_extract_region_columns_spec _ _ (by rfl)

/-- Python `any(word in text for word in words)` against a lower-cased
text. -/
def anyKeyword (words : List String) (text : String) : Bool :=
  words.any (fun w => containsKeyword w text)

namespace Maritime

/-!
Embedding of `categorize_incident_severity`
(scripts/process_maritime_incidents.py lines 42-69): ordered keyword
buckets over the lower-cased `what_happened` and `Brief Description`
texts, with the injured-count truthiness test between the Critical and
keyword-Major buckets.
-/

/-- Python `injured_count and injured_count > 0`: falsy `None` and falsy
`0.0` short-circuit to false, otherwise compare with 0. -/
def injuredPositive : Option ℚ → Bool
  | none => false
  | some x => x != 0 && x > 0

/-- `categorize_incident_severity(what_happened, injured_count, description)`. -/
def categorize_incident_severity (what_happened : String) (injured_count : Option ℚ)
    (description : String) : String :=
  if anyKeyword ["fatal", "death", "foundered", "sinking"] what_happened then "Critical"
  else if anyKeyword ["fatal", "death", "foundered"] description then "Critical"
  else if injuredPositive injured_count then "Major"
  else if anyKeyword ["collision", "grounding", "fire", "explosion"] what_happened then "Major"
  else if anyKeyword ["capsize", "flooding", "structural"] what_happened then "Major"
  else if anyKeyword ["contact", "near miss", "mechanical"] what_happened then "Moderate"
  else if anyKeyword ["propulsion", "equipment"] what_happened then "Moderate"
  else "Minor"

end Maritime

/-- C6: any maritime record whose `what_happened` text contains one of the
Critical-bucket keywords fatal, death, foundered, sinking is classified
'Critical', whatever the injured count and description are: the Critical
bucket is the first branch, ahead of the injured-count test and of both
Major keyword buckets. -/
theorem c6_critical_bucket_first (what_happened : String) (injured_count : Option ℚ)
    (description : String)
    (h : anyKeyword ["fatal", "death", "foundered", "sinking"] what_happened = true) :
    Maritime.categorize_incident_severity what_happened injured_count description =
      "Critical" := by
  unfold Maritime.categorize_incident_severity
  rw [if_pos h]

/-- Witness for C6: `what_happened="Vessel foundered"` with
`injured_persons=0` classifies as Critical. -/
theorem c6_critical_bucket_first_witness :
    Maritime.categorize_incident_severity "Vessel foundered" (some 0)
      "minor damage reported" = "Critical" :=
  c6_critical_bucket_first "Vessel foundered" (some 0) "minor damage reported" (by decide)

namespace Tide

/-!
Embedding of the download loop of `fetch_tide_data`
(scripts/fetch_tide_data.py lines 13-81).  The network is a function from
(city, year) to an outcome: a successful response text, a
`requests.exceptions.RequestException` (covers connection errors,
timeouts, and `raise_for_status` on a non-2xx code), or any other
exception.  Both `except` arms count the failure and fall through to the
next loop iteration; the loop appends every attempted (city, year) pair
to the third component.
-/

inductive FetchOutcome
  | success : String → FetchOutcome
  | requestException : String → FetchOutcome
  | otherError : String → FetchOutcome

/-- `cities` (line 20). -/
def cities : List String :=
  ["Auckland", "Wellington", "Tauranga", "Lyttelton", "Dunedin", "Napier"]

/-- `years` (line 28). -/
def years : List ℕ := [2024, 2025, 2026]

/-- `total_files = len(cities) * len(years)` (line 35). -/
def total_files : ℕ := cities.length * years.length

/-- The body of the nested download loop: given the accumulated
(downloaded, failed, attempted-items) statistics, attempt one city/year
item. -/
def attemptOne (network : String → ℕ → FetchOutcome)
    (acc : ℕ × ℕ × List (String × ℕ)) (city : String) (year : ℕ) :
    ℕ × ℕ × List (String × ℕ) :=
  match network city year with
  | .success _ => (acc.1 + 1, acc.2.1, acc.2.2 ++ [(city, year)])
  | .requestException _ => (acc.1, acc.2.1 + 1, acc.2.2 ++ [(city, year)])
  | .otherError _ => (acc.1, acc.2.1 + 1, acc.2.2 ++ [(city, year)])

/-- `fetch_tide_data()` as a fold over cities and years: returns
(downloaded, failed, attempted items in order). -/
def fetch_tide_data (network : String → ℕ → FetchOutcome) :
    ℕ × ℕ × List (String × ℕ) :=
  cities.foldl
    (fun acc city => years.foldl (fun acc2 year => attemptOne network acc2 city year) acc)
    (0, 0, [])

theorem attempt_inner (network : String → ℕ → FetchOutcome) (city : String) :
    ∀ (ys : List ℕ) (acc : ℕ × ℕ × List (String × ℕ)),
      (ys.foldl (fun acc2 year => attemptOne network acc2 city year) acc).2.2.length =
          acc.2.2.length + ys.length ∧
        (ys.foldl (fun acc2 year => attemptOne network acc2 city year) acc).1 +
            (ys.foldl (fun acc2 year => attemptOne network acc2 city year) acc).2.1 =
          acc.1 + acc.2.1 + ys.length := by
  intro ys
  induction ys with
  | nil => intro acc; simp
  | cons y ys ih =>
    intro acc
    have hstep :
        (attemptOne network acc city y).2.2.length = acc.2.2.length + 1 ∧
          (attemptOne network acc city y).1 + (attemptOne network acc city y).2.1 =
            acc.1 + acc.2.1 + 1 := by
      cases hnet : network city y <;> simp [attemptOne, hnet] <;> omega
    have h2 := ih (attemptOne network acc city y)
    simp only [List.foldl_cons, List.length_cons]
    exact ⟨by rw [h2.1, hstep.1]; ring, by rw [h2.2, hstep.2]; ring⟩

theorem attempt_outer (network : String → ℕ → FetchOutcome) :
    ∀ (cs : List String) (acc : ℕ × ℕ × List (String × ℕ)),
      (cs.foldl (fun a city => years.foldl
          (fun acc2 year => attemptOne network acc2 city year) a) acc).2.2.length =
          acc.2.2.length + cs.length * years.length ∧
        (cs.foldl (fun a city => years.foldl
            (fun acc2 year => attemptOne network acc2 city year) a) acc).1 +
            (cs.foldl (fun a city => years.foldl
              (fun acc2 year => attemptOne network acc2 city year) a) acc).2.1 =
          acc.1 + acc.2.1 + cs.length * years.length := by
  intro cs
  induction cs with
  | nil => intro acc; simp
  | cons c cs ih =>
    intro acc
    have hin := attempt_inner network c years acc
    have := ih (years.foldl (fun acc2 year => attemptOne network acc2 c year) acc)
    constructor
    · simp only [List.foldl_cons, List.length_cons]
      rw [this.1, hin.1]
      ring
    · simp only [List.foldl_cons, List.length_cons]
      rw [this.2, hin.2]
      ring

end Tide

/-- C8: whatever outcome (success, network/timeout/non-2xx exception, or
other error) each city/year item produces, the download loop attempts
every one of the `len(cities) * len(years)` items — the attempted-item
list has exactly `total_files` entries — and every item ends up counted
as either downloaded or failed. -/
theorem c8_batch_never_aborts (network : String → ℕ → Tide.FetchOutcome) :
    (Tide.fetch_tide_data network).2.2.length = Tide.total_files ∧
      (Tide.fetch_tide_data network).1 + (Tide.fetch_tide_data network).2.1 =
        Tide.total_files := by
  have h := Tide.attempt_outer network Tide.cities (0, 0, [])
  unfold Tide.fetch_tide_data Tide.total_files
  constructor
  · rw [h.1]; rfl
  · rw [h.2]; rfl

/-!
Decimal-numeral parsing shared by the numeric coercions of
`process_airfares_data.py` (lines 131-140: strip `[^\d.]`, then
`pd.to_numeric(..., errors='coerce')`) and
`process_maritime_incidents.py` (lines 18-25: `float(value)`).
Float64 values are modelled as exact rationals, so a parsed decimal
numeral is exact; Python renders such a value back (`pyFloatRepr` below)
in fixed-point notation when the leading significant digit's decimal
exponent lies in [-4, 16), and in scientific notation (`'1e-05'`,
`'1e+16'`) otherwise - CPython's notation rule for `str(float)`.
-/

/-- Numeric value of a digit character. -/
def charVal (c : Char) : ℕ := c.toNat - 48

/-- Parser for a plain decimal numeral over digits and at most one dot:
`ip` accumulates the integer part, the optional pair accumulates
(fraction value, fraction digit count), and the flag records whether any
digit has been seen (so `""`, `"."` fail while `"5."`, `".5"` succeed -
exactly which digit/dot strings `float` and `pd.to_numeric` accept). -/
def parseLoop : List Char → ℕ → Option (ℕ × ℕ) → Bool → Option ℚ
  | [], ip, none, anyDigit => if anyDigit then some ip else none
  | [], ip, some fk, anyDigit =>
      if anyDigit then some ((ip : ℚ) + (fk.1 : ℚ) / 10 ^ fk.2) else none
  | c :: cs, ip, none, anyDigit =>
      if c == '.' then parseLoop cs ip (some (0, 0)) anyDigit
      else if c.isDigit then parseLoop cs (10 * ip + charVal c) none true
      else none
  | c :: cs, ip, some fk, anyDigit =>
      if c == '.' then none
      else if c.isDigit then parseLoop cs ip (some (10 * fk.1 + charVal c, fk.2 + 1)) true
      else none

/-- `df[col].astype(str).str.replace(r'[^\d.]', '', regex=True)`: keep
only digits and decimal points (process_airfares_data.py line 136). -/
def stripNonNumeric (s : String) : String :=
  String.mk (s.data.filter (fun c => c.isDigit || c == '.'))

/-- `pd.to_numeric(..., errors='coerce')` on an already-stripped
digit/dot string: NaN (`none`) for the empty string or a malformed
numeral (process_airfares_data.py line 137). -/
def to_numeric_stripped (s : String) : Option ℚ :=
  parseLoop s.data 0 none false

/-- The airfares price coercion: strip non-numeric characters, then
parse with NaN on failure. -/
def coerce_numeric (s : String) : Option ℚ :=
  to_numeric_stripped (stripNonNumeric s)

/-- Big-endian decimal digit characters of `n` (empty for 0); the first
argument is structural fuel, `n ≤ fuel` always holds at use sites. -/
def digitsBEAux : ℕ → ℕ → List Char
  | 0, _ => []
  | fuel + 1, n =>
      if n = 0 then [] else digitsBEAux fuel (n / 10) ++ [Nat.digitChar (n % 10)]

/-- Big-endian decimal digit characters of `n` (empty for 0). -/
def digitsBE (n : ℕ) : List Char := digitsBEAux n n

/-- Python `str(int)` for a natural number. -/
def natChars (n : ℕ) : List Char := if n = 0 then ['0'] else digitsBE n

/-- The `k` fraction digits of `frac < 10^k`, zero-padded on the left. -/
def fracChars (k frac : ℕ) : List Char :=
  List.replicate (k - (digitsBE frac).length) '0' ++ digitsBE frac

/-- The fixed-point decimal rendering of the float with exact value
`n / 10^k` (integer-valued floats print a trailing `.0`); Python uses
this form only when `usesSci` below is false. -/
def fixedRepr (n k : ℕ) : String :=
  if k = 0 then String.mk (natChars n ++ ['.', '0'])
  else String.mk (natChars (n / 10 ^ k) ++ '.' :: fracChars k (n % 10 ^ k))

/-- Drop factors of 10 common to `n` and `10^k`: the canonical (shortest)
decimal representation of the value `n / 10^k`, which is what Python's
shortest-round-trip `str(float)` prints. -/
def canonPair : ℕ → ℕ → ℕ × ℕ
  | n, 0 => (n, 0)
  | n, k + 1 => if n % 10 = 0 then canonPair (n / 10) k else (n, k + 1)

/-- The decimal exponent of the leading significant digit of `n / 10^k`
(for `n ≠ 0`): the value lies in `[10^e, 10^(e+1))`. -/
def decExp (n k : ℕ) : ℤ :=
  ((digitsBE n).length : ℤ) - 1 - k

/-- CPython's notation rule for `str(float)`: scientific notation exactly
when the value is nonzero and its leading-digit decimal exponent is below
-4 or at least 16. -/
def usesSci (n k : ℕ) : Bool :=
  n != 0 && (decExp n k < -4 || 16 ≤ decExp n k)

/-- Drop the trailing decimal zeros of `n` (first argument is structural
fuel, `n ≤ fuel` at use sites). -/
def stripZeros : ℕ → ℕ → ℕ
  | 0, n => n
  | fuel + 1, n => if n != 0 && n % 10 == 0 then stripZeros fuel (n / 10) else n

/-- The significant digits of `n`: `n` without its trailing zeros. -/
def stripTrailZeros (n : ℕ) : ℕ := stripZeros n n

/-- Python's exponent suffix: sign always printed, exponent zero-padded
to at least two digits (`e-05`, `e+16`). -/
def expChars (e : ℤ) : List Char :=
  let mag := natChars e.natAbs
  let digitsPart := if mag.length < 2 then '0' :: mag else mag
  if e < 0 then 'e' :: '-' :: digitsPart else 'e' :: '+' :: digitsPart

/-- The scientific-notation rendering `d.dddde±EE` of `n / 10^k` for
`n ≠ 0`: one leading significant digit, a dot and the remaining
significant digits when there are any, then the exponent suffix. -/
def sciChars (n k : ℕ) : List Char :=
  (match digitsBE (stripTrailZeros n) with
    | [] => []
    | [d] => [d]
    | d :: rest => d :: '.' :: rest) ++ expChars (decExp n k)

/-- Python `str()` of the float with exact value `n / 10^k`: the
canonical decimal digits, in fixed-point or scientific notation as
CPython chooses. -/
def pyFloatRepr (n k : ℕ) : String :=
  let c := canonPair n k
  if usesSci c.1 c.2 then String.mk (sciChars c.1 c.2) else fixedRepr c.1 c.2

theorem charVal_digitChar (d : ℕ) (hd : d < 10) : charVal (Nat.digitChar d) = d := by
  interval_cases d <;> decide

theorem isDigit_digitChar (d : ℕ) (hd : d < 10) : (Nat.digitChar d).isDigit = true := by
  interval_cases d <;> decide

theorem digit_ne_dot (c : Char) (h : c.isDigit = true) : (c == '.') = false := by
  by_cases hc : c = '.'
  · subst hc; exact absurd h (by decide)
  · simp [hc]

theorem digitsBEAux_all_digit :
    ∀ fuel n, ∀ c ∈ digitsBEAux fuel n, c.isDigit = true := by
  intro fuel
  induction fuel with
  | zero => intro n c hc; simp [digitsBEAux] at hc
  | succ fuel ih =>
    intro n c hc
    by_cases h0 : n = 0
    · simp [digitsBEAux, h0] at hc
    · simp only [digitsBEAux, h0, if_false, List.mem_append, List.mem_singleton] at hc
      rcases hc with hc | hc
      · exact ih (n / 10) c hc
      · subst hc; exact isDigit_digitChar _ (Nat.mod_lt n (by norm_num))

theorem digitsBEAux_foldl :
    ∀ fuel n, n ≤ fuel → ∀ a : ℕ,
      (digitsBEAux fuel n).foldl (fun v c => 10 * v + charVal c) a =
        a * 10 ^ (digitsBEAux fuel n).length + n := by
  intro fuel
  induction fuel with
  | zero => intro n hn a; interval_cases n; simp [digitsBEAux]
  | succ fuel ih =>
    intro n hn a
    by_cases h0 : n = 0
    · subst h0; simp [digitsBEAux]
    · have hdiv : n / 10 < n := Nat.div_lt_self (Nat.pos_of_ne_zero h0) (by norm_num)
      have hle : n / 10 ≤ fuel := by omega
      have key : 10 * (n / 10) + n % 10 = n := by omega
      simp only [digitsBEAux, h0, if_false, List.foldl_append, List.foldl_cons,
        List.foldl_nil, List.length_append, List.length_singleton]
      rw [ih (n / 10) hle a, charVal_digitChar _ (Nat.mod_lt n (by norm_num))]
      calc 10 * (a * 10 ^ (digitsBEAux fuel (n / 10)).length + n / 10) + n % 10
          = a * (10 ^ (digitsBEAux fuel (n / 10)).length * 10) +
              (10 * (n / 10) + n % 10) := by ring
        _ = a * 10 ^ ((digitsBEAux fuel (n / 10)).length + 1) + n := by
              rw [key, pow_succ]

theorem digitsBEAux_length_le :
    ∀ fuel n k, n < 10 ^ k → (digitsBEAux fuel n).length ≤ k := by
  intro fuel
  induction fuel with
  | zero => intro n k _; simp [digitsBEAux]
  | succ fuel ih =>
    intro n k hn
    by_cases h0 : n = 0
    · simp [digitsBEAux, h0]
    · match k with
      | 0 => omega
      | k + 1 =>
        have hdiv : n / 10 < 10 ^ k := by
          rw [Nat.div_lt_iff_lt_mul (by norm_num : (0:ℕ) < 10)]
          calc n < 10 ^ (k + 1) := hn
            _ = 10 ^ k * 10 := by rw [pow_succ]
        simp only [digitsBEAux, h0, if_false, List.length_append, List.length_singleton]
        have := ih (n / 10) k hdiv
        omega

theorem natChars_all_digit (n : ℕ) : ∀ c ∈ natChars n, c.isDigit = true := by
  intro c hc
  by_cases h0 : n = 0
  · simp [natChars, h0] at hc; subst hc; decide
  · simp only [natChars, h0, if_false] at hc
    exact digitsBEAux_all_digit n n c hc

theorem natChars_ne_nil (n : ℕ) : natChars n ≠ [] := by
  by_cases h0 : n = 0
  · simp [natChars, h0]
  · have h1 : 1 ≤ n := Nat.pos_of_ne_zero h0
    match n, h1 with
    | n + 1, _ => simp [natChars, digitsBE, digitsBEAux]

theorem natChars_isEmpty (n : ℕ) : (natChars n).isEmpty = false := by
  cases h : natChars n with
  | nil => exact absurd h (natChars_ne_nil n)
  | cons c cs => rfl

theorem natChars_foldl (n : ℕ) :
    (natChars n).foldl (fun v c => 10 * v + charVal c) 0 = n := by
  by_cases h0 : n = 0
  · subst h0; decide
  · simp only [natChars, h0, if_false, digitsBE]
    rw [digitsBEAux_foldl n n le_rfl 0]
    ring

theorem foldl_zeros :
    ∀ (m : ℕ) (f : ℕ),
      (List.replicate m '0').foldl (fun v c => 10 * v + charVal c) f = f * 10 ^ m := by
  intro m
  induction m with
  | zero => intro f; simp
  | succ m ih =>
    intro f
    have hz : charVal '0' = 0 := by decide
    simp only [List.replicate_succ, List.foldl_cons, hz, Nat.add_zero]
    rw [ih (10 * f), pow_succ]
    ring

theorem parseLoop_int_run :
    ∀ (ds : List Char), (∀ c ∈ ds, c.isDigit = true) →
      ∀ (rest : List Char) (ip : ℕ) (a : Bool),
        parseLoop (ds ++ rest) ip none a =
          parseLoop rest (ds.foldl (fun v c => 10 * v + charVal c) ip) none
            (a || !ds.isEmpty) := by
  intro ds
  induction ds with
  | nil => intro _ rest ip a; simp
  | cons c ds ih =>
    intro hall rest ip a
    have hc : c.isDigit = true := hall c (List.mem_cons_self c ds)
    have hdot := digit_ne_dot c hc
    simp only [List.cons_append, parseLoop, hdot, Bool.false_eq_true, if_false, hc,
      if_true, List.append_eq]
    rw [ih (fun d hd => hall d (List.mem_cons_of_mem c hd)) rest (10 * ip + charVal c) true]
    simp

theorem parseLoop_frac_run :
    ∀ (ds : List Char), (∀ c ∈ ds, c.isDigit = true) →
      ∀ (rest : List Char) (ip f k : ℕ) (a : Bool),
        parseLoop (ds ++ rest) ip (some (f, k)) a =
          parseLoop rest ip
            (some (ds.foldl (fun v c => 10 * v + charVal c) f, k + ds.length))
            (a || !ds.isEmpty) := by
  intro ds
  induction ds with
  | nil => intro _ rest ip f k a; simp
  | cons c ds ih =>
    intro hall rest ip f k a
    have hc : c.isDigit = true := hall c (List.mem_cons_self c ds)
    have hdot := digit_ne_dot c hc
    simp only [List.cons_append, parseLoop, hdot, Bool.false_eq_true, if_false, hc,
      if_true, List.append_eq]
    rw [ih (fun d hd => hall d (List.mem_cons_of_mem c hd)) rest ip
      (10 * f + charVal c) (k + 1) true]
    have harith : k + 1 + ds.length = k + (c :: ds).length := by
      simp [List.length_cons]; omega
    rw [harith]
    simp

theorem fracChars_all_digit (k frac : ℕ) : ∀ c ∈ fracChars k frac, c.isDigit = true := by
  intro c hc
  simp only [fracChars, List.mem_append, List.mem_replicate] at hc
  rcases hc with hc | hc
  · rw [hc.2]; decide
  · exact digitsBEAux_all_digit frac frac c hc

theorem fracChars_foldl (k frac : ℕ) :
    (fracChars k frac).foldl (fun v c => 10 * v + charVal c) 0 = frac := by
  simp only [fracChars, List.foldl_append, digitsBE]
  rw [foldl_zeros, Nat.zero_mul, digitsBEAux_foldl frac frac le_rfl 0]
  ring

theorem fracChars_length (k frac : ℕ) (h : frac < 10 ^ k) :
    (fracChars k frac).length = k := by
  have := digitsBEAux_length_le frac frac k h
  simp only [fracChars, List.length_append, List.length_replicate, digitsBE]
  omega

/-- Parsing the decimal rendering of `n / 10^k` recovers exactly
`n / 10^k`. -/
theorem parseLoop_fixedRepr (n k : ℕ) :
    parseLoop (fixedRepr n k).data 0 none false = some ((n : ℚ) / 10 ^ k) := by
  by_cases hk : k = 0
  · subst hk
    show parseLoop (natChars n ++ ['.', '0']) 0 none false = _
    rw [parseLoop_int_run (natChars n) (natChars_all_digit n) ['.', '0'] 0 false,
      natChars_foldl, natChars_isEmpty]
    show parseLoop ['.', '0'] n none true = _
    have h0 : ('0' : Char).isDigit = true := by decide
    have hz : charVal '0' = 0 := by decide
    simp only [parseLoop, beq_self_eq_true, if_true, digit_ne_dot '0' h0,
      Bool.false_eq_true, if_false, h0, hz]
    norm_num
  · rw [show fixedRepr n k =
        String.mk (natChars (n / 10 ^ k) ++ '.' :: fracChars k (n % 10 ^ k)) by
      simp [fixedRepr, hk]]
    show parseLoop (natChars (n / 10 ^ k) ++ '.' :: fracChars k (n % 10 ^ k))
      0 none false = _
    rw [parseLoop_int_run _ (natChars_all_digit _) _ 0 false, natChars_foldl,
      natChars_isEmpty]
    show parseLoop ('.' :: fracChars k (n % 10 ^ k)) (n / 10 ^ k) none true = _
    simp only [parseLoop, beq_self_eq_true, if_true]
    rw [← List.append_nil (fracChars k (n % 10 ^ k)),
      parseLoop_frac_run _ (fracChars_all_digit _ _) [] _ 0 0 true, fracChars_foldl,
      fracChars_length k _ (Nat.mod_lt n (Nat.pos_pow_of_pos k (by norm_num)))]
    simp only [parseLoop, Bool.true_or, if_true, Nat.zero_add]
    have hmod := Nat.div_add_mod n (10 ^ k)
    have hpow : ((10 : ℚ) ^ k) ≠ 0 := by positivity
    rw [Option.some_inj, eq_div_iff hpow, add_mul, div_mul_cancel₀ _ hpow]
    have hmod2 : (n / 10 ^ k) * 10 ^ k + n % 10 ^ k = n := by
      rw [Nat.mul_comm] at hmod
      exact hmod
    exact_mod_cast hmod2

/-- A successful parse always has the exact value of a decimal numeral:
some `n / 10^k`. -/
theorem parseLoop_shape :
    ∀ (cs : List Char) (ip : ℕ) (fs : Option (ℕ × ℕ)) (a : Bool) (q : ℚ),
      parseLoop cs ip fs a = some q → ∃ n k : ℕ, q = (n : ℚ) / 10 ^ k := by
  intro cs
  induction cs with
  | nil =>
    intro ip fs a q h
    match fs with
    | none =>
      simp only [parseLoop] at h
      split at h
      · refine ⟨ip, 0, ?_⟩
        simp [← Option.some_inj.mp h]
      · exact absurd h (by simp)
    | some (f, fk) =>
      simp only [parseLoop] at h
      split at h
      · refine ⟨ip * 10 ^ fk + f, fk, ?_⟩
        rw [← Option.some_inj.mp h]
        have hpow : ((10 : ℚ) ^ fk) ≠ 0 := by positivity
        rw [eq_comm, div_eq_iff hpow, add_mul, div_mul_cancel₀ _ hpow]
        push_cast
        ring
      · exact absurd h (by simp)
  | cons c cs ih =>
    intro ip fs a q h
    match fs with
    | none =>
      simp only [parseLoop] at h
      split at h
      · exact ih ip (some (0, 0)) a q h
      · split at h
        · exact ih (10 * ip + charVal c) none true q h
        · exact absurd h (by simp)
    | some (f, fk) =>
      simp only [parseLoop] at h
      split at h
      · exact absurd h (by simp)
      · split at h
        · exact ih ip (some (10 * f + charVal c, fk + 1)) true q h
        · exact absurd h (by simp)

theorem fixedRepr_chars (n k : ℕ) :
    ∀ c ∈ (fixedRepr n k).data, (c.isDigit || c == '.') = true := by
  intro c hc
  by_cases hk : k = 0
  · simp only [fixedRepr, hk, if_true] at hc
    have : c ∈ natChars n ++ ['.', '0'] := hc
    simp only [List.mem_append] at this
    rcases this with h | h
    · simp [natChars_all_digit n c h]
    · simp only [List.mem_cons, List.mem_singleton] at h
      rcases h with h | h | h
      · subst h; decide
      · subst h; decide
      · simp at h
  · simp only [fixedRepr, hk, if_false] at hc
    have : c ∈ natChars (n / 10 ^ k) ++ '.' :: fracChars k (n % 10 ^ k) := hc
    simp only [List.mem_append, List.mem_cons] at this
    rcases this with h | h | h
    · simp [natChars_all_digit _ c h]
    · subst h; decide
    · simp [fracChars_all_digit _ _ c h]

theorem stripNonNumeric_fixedRepr (n k : ℕ) :
    stripNonNumeric (fixedRepr n k) = fixedRepr n k := by
  have hfix : (fixedRepr n k).data.filter (fun c => c.isDigit || c == '.') =
      (fixedRepr n k).data :=
    List.filter_eq_self.mpr (fixedRepr_chars n k)
  show String.mk _ = _
  rw [hfix]

/-- `canonPair` preserves the value `n / 10^k`. -/
theorem canonPair_val : ∀ (k n : ℕ),
    (((canonPair n k).1 : ℚ)) / 10 ^ (canonPair n k).2 = (n : ℚ) / 10 ^ k := by
  intro k
  induction k with
  | zero => intro n; rfl
  | succ k ih =>
    intro n
    by_cases h : n % 10 = 0
    · have hdvd : (10 : ℕ) ∣ n := Nat.dvd_of_mod_eq_zero h
      have hmul : (n / 10) * 10 = n := Nat.div_mul_cancel hdvd
      simp only [canonPair, h, if_true]
      rw [ih (n / 10)]
      have hpow : ((10 : ℚ) ^ k) ≠ 0 := by positivity
      rw [div_eq_div_iff hpow (by positivity), pow_succ]
      have hc : ((n : ℚ)) = ((n / 10 : ℕ) : ℚ) * 10 := by exact_mod_cast hmul.symm
      rw [hc]
      ring
    · simp only [canonPair, h, if_false]

/-- C7 counterexample: the coercion itself produces the float 1e-05 from
the cell "0.00001"; Python renders that float in scientific notation as
"1e-05", and re-coercing it strips the characters `e` and `-`, leaving
"105" - so applying the coercion to this already-coerced float yields
105.0, not the same float.  The claimed idempotence over every float is
false of the program. -/
theorem c7_idempotence_counterexample :
    coerce_numeric "0.00001" = some (1 / 100000 : ℚ) ∧
      pyFloatRepr 1 5 = "1e-05" ∧
      coerce_numeric (pyFloatRepr 1 5) = some (105 : ℚ) ∧
      (105 : ℚ) ≠ (1 / 100000 : ℚ) := by
  refine ⟨?_, by decide, ?_, by norm_num⟩
  · have h1 : stripNonNumeric "0.00001" = fixedRepr 1 5 := by decide
    show to_numeric_stripped (stripNonNumeric "0.00001") = _
    rw [h1]
    show parseLoop (fixedRepr 1 5).data 0 none false = _
    rw [parseLoop_fixedRepr]
    norm_num
  · have h2 : stripNonNumeric (pyFloatRepr 1 5) = "105" := by decide
    show to_numeric_stripped (stripNonNumeric (pyFloatRepr 1 5)) = _
    rw [h2]
    show parseLoop "105".data 0 none false = _
    rw [← List.append_nil ("105".data),
      parseLoop_int_run ("105".data) (by decide) [] 0 false]
    have h3 : ("105".data).foldl (fun v c => 10 * v + charVal c) 0 = 105 := by decide
    have h4 : (false || !("105".data).isEmpty) = true := by decide
    rw [h3, h4]
    show (if true then some ((105 : ℕ) : ℚ) else none) = some 105
    norm_num

/-- C7 (amended): the price coercion is idempotent exactly on the floats
Python renders in fixed-point notation: every successfully coerced value
is some `n / 10^k`, and whenever `str()` of that value does not use
scientific notation (value zero, or leading-digit decimal exponent in
[-4, 16)), coercing the rendering returns the identical value; and
`coerce_numeric "$1,234.50" = 1234.50`. -/
theorem c7_coercion_idempotent_fixed_notation :
    (∀ (s : String) (q : ℚ), coerce_numeric s = some q →
      ∃ n k : ℕ, q = (n : ℚ) / 10 ^ k ∧
        (usesSci (canonPair n k).1 (canonPair n k).2 = false →
          coerce_numeric (pyFloatRepr n k) = some q)) ∧
      coerce_numeric "$1,234.50" = some (1234.5 : ℚ) := by
  constructor
  · intro s q h
    obtain ⟨n, k, hq⟩ := parseLoop_shape (stripNonNumeric s).data 0 none false q h
    refine ⟨n, k, hq, fun hfixed => ?_⟩
    have hrepr : pyFloatRepr n k =
        fixedRepr (canonPair n k).1 (canonPair n k).2 := by
      simp only [pyFloatRepr, hfixed, Bool.false_eq_true, if_false]
    rw [hrepr]
    show to_numeric_stripped
      (stripNonNumeric (fixedRepr (canonPair n k).1 (canonPair n k).2)) = some q
    rw [stripNonNumeric_fixedRepr]
    show parseLoop (fixedRepr (canonPair n k).1 (canonPair n k).2).data
      0 none false = some q
    rw [parseLoop_fixedRepr, canonPair_val k n, hq]
  · have hstrip : stripNonNumeric "$1,234.50" = fixedRepr 123450 2 := by decide
    show to_numeric_stripped (stripNonNumeric "$1,234.50") = _
    rw [hstrip]
    show parseLoop (fixedRepr 123450 2).data 0 none false = _
    rw [parseLoop_fixedRepr]
    norm_num

/-- Witness for C7 (amended): the value coerced from `"$1,234.50"` is
rendered in fixed-point notation and re-coerces to itself. -/
theorem c7_coercion_idempotent_fixed_notation_witness :
    ∃ n k : ℕ, (1234.5 : ℚ) = (n : ℚ) / 10 ^ k ∧
      (usesSci (canonPair n k).1 (canonPair n k).2 = false →
        coerce_numeric (pyFloatRepr n k) = some (1234.5 : ℚ)) :=
  c7_coercion_idempotent_fixed_notation.1 "$1,234.50" (1234.5 : ℚ)
    c7_coercion_idempotent_fixed_notation.2

/-- Python `str.upper()`, character by character. -/
def pyUpper (s : String) : String :=
  String.mk (s.data.map Char.toUpper)

/-- Python `float(value)` on a string, restricted to plain decimal
notation: surrounding whitespace is ignored, an optional single sign is
allowed, then digits with at most one dot (scientific notation, inf and
nan are outside the model); `none` models the raised `ValueError`. -/
def pyFloat (s : String) : Option ℚ :=
  match (pyStrip s).data with
  | '-' :: cs => (parseLoop cs 0 none false).map (fun q => -q)
  | '+' :: cs => parseLoop cs 0 none false
  | cs => parseLoop cs 0 none false

namespace Maritime

/-!
Embedding of `clean_numeric_field` and `process_maritime_incidents`
(scripts/process_maritime_incidents.py lines 18-25 and 71-163).  A raw
incident row carries the fields that feed the derived columns of the
output frame; the date-derived and passthrough columns play no part in
the coordinate filter of line 159 and are omitted.  A missing CSV cell is
`none`.
-/

/-- `clean_numeric_field(value)`: `None` for NaN or the string 'NULL'
(any casing), the parsed float otherwise, `None` when `float()` raises. -/
def clean_numeric_field (value : Option String) : Option ℚ :=
  match value with
  | none => none
  | some s => if pyUpper s == "NULL" then none else pyFloat s

structure RawIncident where
  event_id : String
  what_happened : String
  brief_description : String
  number_of_injured_persons : Option String
  latitude : Option String
  longitude : Option String
deriving DecidableEq

structure OutIncident where
  event_id : String
  what_happened : String
  incident_severity : String
  latitude_decimal : Option ℚ
  longitude_decimal : Option ℚ
  injured_persons : Option ℚ
deriving DecidableEq

/-- One row of the output frame built in lines 86-156: coordinate and
injury columns through `clean_numeric_field`, severity through
`categorize_incident_severity`, text stripped. -/
def toOutputRow (r : RawIncident) : OutIncident where
  event_id := r.event_id
  what_happened := pyStrip r.what_happened
  incident_severity :=
    categorize_incident_severity r.what_happened
      (clean_numeric_field r.number_of_injured_persons) r.brief_description
  latitude_decimal := clean_numeric_field r.latitude
  longitude_decimal := clean_numeric_field r.longitude
  injured_persons := clean_numeric_field r.number_of_injured_persons

/-- Lines 86-159: build the output frame, then
`output_df[output_df['latitude_decimal'].notna() &
output_df['longitude_decimal'].notna()]`. -/
def process_maritime_incidents (rows : List RawIncident) : List OutIncident :=
  (rows.map toOutputRow).filter
    (fun o => o.latitude_decimal.isSome && o.longitude_decimal.isSome)

/-- The raw incident of the C10 witness. -/
def c10row : RawIncident :=
  ⟨"E1", "Collision with wharf", "hull damage", some "0", some "174", some "36"⟩

end Maritime

/-- C10: the written maritime table contains exactly the rows whose
latitude and longitude both coerce to numbers — a record with a missing,
'NULL' or unparseable coordinate is excluded no matter what its other
fields hold — and consequently every persisted record has both
coordinates non-null. -/
theorem c10_coordinates_always_present (rows : List Maritime.RawIncident) :
    Maritime.process_maritime_incidents rows =
      (rows.filter (fun r => (Maritime.clean_numeric_field r.latitude).isSome &&
        (Maritime.clean_numeric_field r.longitude).isSome)).map Maritime.toOutputRow ∧
      ∀ o ∈ Maritime.process_maritime_incidents rows,
        o.latitude_decimal ≠ none ∧ o.longitude_decimal ≠ none := by
  constructor
  · unfold Maritime.process_maritime_incidents
    rw [List.filter_map]
    rfl
  · intro o ho
    unfold Maritime.process_maritime_incidents at ho
    have hp := List.of_mem_filter ho
    simp only [Bool.and_eq_true, Option.isSome_iff_ne_none] at hp
    exact hp

/-- Witness for C10: a single incident with parseable coordinates
survives the filter with both coordinates non-null. -/
theorem c10_coordinates_always_present_witness :
    (Maritime.toOutputRow Maritime.c10row).latitude_decimal ≠ none ∧
      (Maritime.toOutputRow Maritime.c10row).longitude_decimal ≠ none :=
  (c10_coordinates_always_present [Maritime.c10row]).2
    (Maritime.toOutputRow Maritime.c10row)
    (by
      have h : Maritime.process_maritime_incidents [Maritime.c10row] =
          [Maritime.toOutputRow Maritime.c10row] := rfl
      rw [h]
      exact List.mem_singleton_self _)

/-- Split a character list at every occurrence of `sep`
(Python `str.split(sep)`). -/
def splitOnChar (sep : Char) : List Char → List (List Char)
  | [] => [[]]
  | c :: rest =>
      if c == sep then [] :: splitOnChar sep rest
      else
        match splitOnChar sep rest with
        | [] => [[c]]
        | h :: t => (c :: h) :: t

/-- Python `int(str)` restricted to unsigned decimal digits. -/
def parseNat (cs : List Char) : Option ℕ :=
  if !cs.isEmpty && cs.all Char.isDigit then
    some (cs.foldl (fun v c => 10 * v + charVal c) 0)
  else none

namespace Tourism

/-!
Embedding of `parse_period_to_date`, the long-record loops of
`process_guest_nights` and `process_occupancy_rates`, and the
pivot index (scripts/process_tourism_data.py lines 26-49, 156-276).
A date is (year, month, day).
-/

/-- `parse_period_to_date(period_str)` (lines 26-49): `None` for NaN,
`''` or `' '`; `'1996M07'`-style strings become the first of that month
(a malformed year/month, or a month outside 1..12, makes `pd.to_datetime`
raise and the except arm returns `None`); bare year strings in 1800..2100
become Jan 1 of that year; everything else returns `None`. -/
def parse_period_to_date (v : Option String) : Option (ℕ × ℕ × ℕ) :=
  match v with
  | none => none
  | some raw =>
    if raw == "" || raw == " " then none
    else
      let s := pyStrip raw
      if s.data.contains 'M' then
        match splitOnChar 'M' s.data with
        | [y, m] =>
          match parseNat y, parseNat m with
          | some yv, some mv =>
              if 1 ≤ mv && mv ≤ 12 then some (yv, mv, 1) else none
          | _, _ => none
        | _ => none
      else
        match parseNat s.data with
        | some yv => if 1800 ≤ yv && yv ≤ 2100 then some (yv, 1, 1) else none
        | none => none

/-- `pd.to_numeric(value, errors='coerce')` on one data cell. -/
def to_numeric_cell : Cell → Option ℚ
  | .na => none
  | .num q => some q
  | .str s => pyFloat s
  | .ts => none

/-- One data row: the period cell (`row.iloc[0]`) and the data cells
(`row.iloc[1:]`). -/
structure DataRow where
  period : Option String
  cells : List Cell

/-- One long-format record of lines 189-198 (the constant data_source,
period_type, description and timestamp columns are omitted). -/
structure TourismRecord where
  report_date : ℕ × ℕ × ℕ
  region : String
  metric_type : String
  value : ℚ
deriving DecidableEq

/-- The inner loop of lines 182-198: walk the (region, metric) pairs in
parallel with the data cells (`row.iloc[i+1]`; an index beyond the row is
skipped); a record is appended only when the coerced value is non-NaN and
the region is not 'Unknown'. -/
def colRecords (d : ℕ × ℕ × ℕ) :
    List (String × String) → List Cell → List TourismRecord
  | [], _ => []
  | _ :: _, [] => []
  | (region, metric) :: rm, c :: cs =>
    let rest := colRecords d rm cs
    match to_numeric_cell c with
    | some v => if region != "Unknown" then ⟨d, region, metric, v⟩ :: rest else rest
    | none => rest

/-- The outer loop of lines 174-198: rows whose period does not parse are
skipped, the rest contribute their column records in order. -/
def buildLongRecords (regions metrics : List String) (rows : List DataRow) :
    List TourismRecord :=
  rows.foldr
    (fun row acc =>
      match parse_period_to_date row.period with
      | none => acc
      | some d => colRecords d (regions.zip metrics) row.cells ++ acc) []

/-- A row key of the `pivot_table` of lines 204-209: the non-constant
index levels (report_date, region).  The pivoted metric columns carry no
region information and are irrelevant to the property. -/
structure PivotKey where
  report_date : ℕ × ℕ × ℕ
  region : String
deriving DecidableEq

/-- The distinct index keys the pivot produces, one output row each. -/
def pivotKeys (recs : List TourismRecord) : List PivotKey :=
  (recs.map (fun r => PivotKey.mk r.report_date r.region)).dedup

/-- `process_guest_nights` (lines 156-215): extract the column labels
from the two header rows, build the long records, pivot. -/
def process_guest_nights (header_regions header_metrics : List (Option String))
    (rows : List DataRow) : List PivotKey :=
  let rm := extract_region_columns header_regions header_metrics
  pivotKeys (buildLongRecords rm.1 rm.2 rows)

/-- `process_occupancy_rates` (lines 217-276): identical processing over
the occupancy source. -/
def process_occupancy_rates (header_regions header_metrics : List (Option String))
    (rows : List DataRow) : List PivotKey :=
  let rm := extract_region_columns header_regions header_metrics
  pivotKeys (buildLongRecords rm.1 rm.2 rows)

theorem colRecords_no_unknown (d : ℕ × ℕ × ℕ) :
    ∀ (rm : List (String × String)) (cs : List Cell) (r : TourismRecord),
      r ∈ colRecords d rm cs → r.region ≠ "Unknown" := by
  intro rm
  induction rm with
  | nil => intro cs r hr; simp [colRecords] at hr
  | cons p rm ih =>
    intro cs r hr
    obtain ⟨region, metric⟩ := p
    match cs with
    | [] => simp [colRecords] at hr
    | c :: cs =>
      simp only [colRecords] at hr
      cases hv : to_numeric_cell c with
      | none => simp only [hv] at hr; exact ih cs r hr
      | some v =>
        simp only [hv] at hr
        by_cases hreg : (region != "Unknown") = true
        · simp only [hreg, if_true] at hr
          rcases List.mem_cons.mp hr with h | h
          · subst h
            simpa using hreg
          · exact ih cs r h
        · simp only [Bool.not_eq_true] at hreg
          simp only [hreg, Bool.false_eq_true, if_false] at hr
          exact ih cs r hr

theorem buildLongRecords_no_unknown (regions metrics : List String) :
    ∀ (rows : List DataRow) (r : TourismRecord),
      r ∈ buildLongRecords regions metrics rows → r.region ≠ "Unknown" := by
  intro rows
  induction rows with
  | nil => intro r hr; simp [buildLongRecords] at hr
  | cons row rows ih =>
    intro r hr
    simp only [buildLongRecords, List.foldr_cons] at hr
    cases hd : parse_period_to_date row.period with
    | none =>
      rw [hd] at hr
      exact ih r hr
    | some d =>
      rw [hd] at hr
      rcases List.mem_append.mp hr with h | h
      · exact colRecords_no_unknown d _ _ r h
      · exact ih r h

theorem pivotKeys_no_unknown (recs : List TourismRecord)
    (hrecs : ∀ r ∈ recs, r.region ≠ "Unknown") :
    ∀ k ∈ pivotKeys recs, k.region ≠ "Unknown" := by
  intro k hk
  have hk2 := List.mem_dedup.mp hk
  obtain ⟨r, hr, hkr⟩ := List.mem_map.mp hk2
  have := hrecs r hr
  rw [← hkr]
  simpa using this

end Tourism

/-- C9: for every pair of header rows and every set of data rows, no
pivot output row of the guest-nights processor or of the occupancy-rates
processor has region 'Unknown': a long record whose column resolved to the
primary label 'Unknown' is dropped before pivoting even when its cell
value is a valid number. -/
theorem c9_unknown_region_dropped (header_regions header_metrics : List (Option String))
    (rows : List Tourism.DataRow) :
    (∀ k ∈ Tourism.process_guest_nights header_regions header_metrics rows,
      k.region ≠ "Unknown") ∧
    (∀ k ∈ Tourism.process_occupancy_rates header_regions header_metrics rows,
      k.region ≠ "Unknown") := by
  constructor
  · intro k hk
    exact Tourism.pivotKeys_no_unknown _
      (Tourism.buildLongRecords_no_unknown _ _ rows) k hk
  · intro k hk
    exact Tourism.pivotKeys_no_unknown _
      (Tourism.buildLongRecords_no_unknown _ _ rows) k hk

/-- Witness for C9: a header whose first data column has no region
context (so it resolves to 'Unknown') and a 2023 annual row with valid
numbers in both columns; the surviving pivot row is the Auckland one. -/
theorem c9_unknown_region_dropped_witness :
    (⟨(2023, 1, 1), "Auckland"⟩ : Tourism.PivotKey).region ≠ "Unknown" :=
  (c9_unknown_region_dropped [none, some "Auckland"] [some "Val", some "Nights"]
      [⟨some "2023", [.num 5, .num 7]⟩]).1 ⟨(2023, 1, 1), "Auckland"⟩
    (by
      have h : Tourism.process_guest_nights [none, some "Auckland"]
          [some "Val", some "Nights"] [⟨some "2023", [.num 5, .num 7]⟩] =
          [⟨(2023, 1, 1), "Auckland"⟩] := rfl
      rw [h]
      exact List.mem_singleton_self _)

